import Mathlib

/-! Verification development for bazel-llvm-bridge.

Shallow embedding of

* `examples/llvm/function_argument_usage_pass.cc` (the `FunctionArgumentUsagePass`),
* `examples/clang/clang_list_methods.cc` (the method lister),
* `src/llvm_bb_counter.cc` (the bitcode basic-block counter),

followed by the theorems about them.  Objects owned by the LLVM and libclang libraries
(types, functions, call instructions, cursors) are represented by the observations the
programs make on them.
-/

set_option autoImplicit false

namespace llvm

/-- Type categories returned by `Type::getTypeID()`; the enumeration of the library header
`llvm/IR/Type.h`.  Every integer type, whatever its bit width, has `IntegerTyID`. -/
inductive TypeID where
  | HalfTyID | BFloatTyID | FloatTyID | DoubleTyID | X86_FP80TyID | FP128TyID
  | PPC_FP128TyID | VoidTyID | LabelTyID | MetadataTyID | X86_AMXTyID | TokenTyID
  | IntegerTyID | FunctionTyID | PointerTyID | StructTyID | ArrayTyID
  | FixedVectorTyID | ScalableVectorTyID | TypedPointerTyID | TargetExtTyID
  deriving DecidableEq, Repr

/-- An `llvm::Type` (`Type` is reserved in Lean) as the pass observes it: `getTypeID()` and the text that
`operator<<` writes for it. -/
structure LLVMType where
  typeID : TypeID
  display : String
  deriving DecidableEq, Repr

/-- A formal argument of a function (`llvm::Argument`): `hasName()`/`getName()` and
`getType()`.  `getArgNo()` is the position of the argument in the argument list of its
function, so it is carried by the iteration rather than stored. -/
structure Argument where
  name : Option String
  type : LLVMType
  deriving DecidableEq, Repr

/-- An `llvm::Function` as the pass observes it: `getName()` and `arg_begin()..arg_end()`. -/
structure Function where
  name : String
  args : List Argument
  deriving DecidableEq, Repr

/-- A value passed at a call (`pha->get()`): `hasName()`/`getName()` and `getType()`. -/
structure Value where
  name : Option String
  type : LLVMType
  deriving DecidableEq, Repr

/-- A call or invoke instruction as the pass observes it.  `id` is the identity of the
instruction (its address), `parentName` is `getParent()->getParent()->getName()`,
`debugLoc` is `some line` when `getDebugLoc()` is set, and `args` is
`arg_begin()..arg_end()`. -/
structure CallBase where
  id : Nat
  parentName : String
  debugLoc : Option Nat
  args : List Value
  deriving DecidableEq, Repr

/-- The user of one use of a function (`use->getUser()`), by the outcome of the two
`dyn_cast`s of `runOnFunction`. -/
inductive User where
  | CallInst (call : CallBase)
  | InvokeInst (call : CallBase)
  | Other
  deriving DecidableEq, Repr

/-- One escaped byte of `raw_ostream::write_escaped` (library routine, octal escapes). -/
def escapeByte (b : Nat) : List Char :=
  if b = 92 then [Char.ofNat 92, Char.ofNat 92]
  else if b = 9 then [Char.ofNat 92, 't']
  else if b = 10 then [Char.ofNat 92, 'n']
  else if b = 34 then [Char.ofNat 92, Char.ofNat 34]
  else if 32 ≤ b ∧ b ≤ 126 then [Char.ofNat b]
  else [Char.ofNat 92, Char.ofNat (48 + (b / 64) % 8), Char.ofNat (48 + (b / 8) % 8),
        Char.ofNat (48 + b % 8)]

/-- The text `raw_ostream::write_escaped(Str)` writes: backslash, tab, newline and double
quote are escaped, printable bytes are copied, any other byte is written as a three-digit
octal escape. -/
def write_escaped (s : String) : String :=
  String.mk (s.data.flatMap fun c => (String.utf8EncodeChar c).flatMap fun b => escapeByte b.toNat)

end llvm

open llvm

/-- The record `FunctionArgumentUsagePass::TypeMismatchRecord`. -/
structure TypeMismatchRecord where
  functionName : String
  line : Nat
  hasLine : Bool
  argNo : Nat
  expectedType : LLVMType
  actualType : LLVMType
  deriving DecidableEq, Repr

/-- Modelled from the spec: the `STATISTIC` counter `NumOfMismatches` is a running counter and
`NumOfMismatches++` adds one to it (the macro and the counter class are library code). -/
def Statistic.incr (n : Nat) : Nat := n + 1

/-- The state the pass works on: the run-wide statistic `NumOfMismatches`, the member
`typeMismatches` of the pass instance, and the text written to `dbgs()` so far. -/
structure PassState where
  NumOfMismatches : Nat
  typeMismatches : List TypeMismatchRecord
  dbgs : String
  deriving DecidableEq, Repr

namespace FunctionArgumentUsagePass

/-- A freshly constructed pass in a fresh process. -/
def fresh : PassState := ⟨0, [], ""⟩

/-- The loop of `dumpFunctionArgs` over the formal arguments. -/
def dumpArgs : List Argument → String → String
  | [], out => out
  | a :: rest, out =>
    let out1 := match a.name with
      | some n => out ++ "\t" ++ n
      | none => out ++ "\tanonymous"
    dumpArgs rest (out1 ++ ": " ++ a.type.display ++ "\n")

/-- The function `dumpFunctionArgs`, writing to `dbgs()`. -/
def dumpFunctionArgs (F : Function) (out : String) : String :=
  dumpArgs F.args
    (out ++ "function '" ++ write_escaped F.name ++ "' takes " ++ toString F.args.length
      ++ " parameters:\n")

/-- The first `LLVM_DEBUG` block of `analyzeFunctionUsages`: runs only when debug output is
enabled; it writes to `dbgs()` and assigns `line` and `hasLine`.  Returns
`(hasLine, line, dbgs)`. -/
def debugHeader (debug : Bool) (call : CallBase) (out : String) : Bool × Nat × String :=
  if debug then
    let out1 := out ++ "and is used in the '" ++ write_escaped call.parentName ++ "' function"
    match call.debugLoc with
    | some l => (true, l, out1 ++ " (on line: " ++ toString l ++ ")" ++ ":\n")
    | none => (false, 0, out1 ++ ":\n")
  else (false, 0, out)

/-- The body of the `for` loop of `analyzeFunctionUsages` for the formal argument `fa`
(at position `argNo`, the value of `fa->getArgNo()`) and the actual argument `pha`. -/
def analyzeStep (debug : Bool) (F : Function) (line : Nat) (hasLine : Bool) (argNo : Nat)
    (fa : Argument) (pha : Value) (st : PassState) : PassState :=
  let ftypeptr := fa.type
  let phtypeptr := pha.type
  let st1 : PassState :=
    if debug then
      let d1 := st.dbgs ++ "\targ #" ++ toString argNo
      let d2 := match pha.name with
        | some n => d1 ++ "(" ++ n ++ ")"
        | none => d1
      { st with dbgs := d2 ++ ": " ++ phtypeptr.display ++ "\n" }
    else st
  if ftypeptr.typeID ≠ phtypeptr.typeID then
    let st2 : PassState :=
      { st1 with
        NumOfMismatches := Statistic.incr st1.NumOfMismatches
        typeMismatches := st1.typeMismatches ++
          [⟨F.name, line, hasLine, argNo, ftypeptr, phtypeptr⟩] }
    if debug then
      { st2 with dbgs := st2.dbgs ++ "\ttype mismatch: expected '" ++ ftypeptr.display
          ++ "' but argument is of type '" ++ phtypeptr.display ++ "'\n" }
    else st2
  else st1

/-- The `for` loop of `analyzeFunctionUsages`: `fas` is the range `fa..fe`, `phas` the range
`pha..phe`, `argNo` the position of `fa`; the loop runs while both ranges are non-empty. -/
def analyzeLoop (debug : Bool) (F : Function) (line : Nat) (hasLine : Bool) :
    Nat → List Argument → List Value → PassState → PassState
  | argNo, fa :: fas, pha :: phas, st =>
    analyzeLoop debug F line hasLine (argNo + 1) fas phas
      (analyzeStep debug F line hasLine argNo fa pha st)
  | _, _, _, st => st

/-- The member template `analyzeFunctionUsages(F, call)`; `debug` tells whether the
`LLVM_DEBUG` blocks run. -/
def analyzeFunctionUsages (debug : Bool) (F : Function) (call : CallBase)
    (st : PassState) : PassState :=
  let hdr := debugHeader debug call st.dbgs
  analyzeLoop debug F hdr.2.1 hdr.1 0 F.args call.args { st with dbgs := hdr.2.2 }

/-- The body of the loop of `runOnFunction` for one use. -/
def runOnUse (debug : Bool) (F : Function) (user : User) (st : PassState) : PassState :=
  match user with
  | User.CallInst call => analyzeFunctionUsages debug F call st
  | User.InvokeInst call => analyzeFunctionUsages debug F call st
  | User.Other => st

/-- The loop of `runOnFunction` over `F.use_begin()..F.use_end()`. -/
def runOnUses (debug : Bool) (F : Function) : List User → PassState → PassState
  | [], st => st
  | u :: rest, st => runOnUses debug F rest (runOnUse debug F u st)

/-- The method `runOnFunction(F)`; `uses` lists `use->getUser()` for the uses of `F` in
order.  Returns the new state and the returned `bool`. -/
def runOnFunction (debug : Bool) (F : Function) (uses : List User)
    (st : PassState) : PassState × Bool :=
  let st1 : PassState :=
    if debug then { st with dbgs := dumpFunctionArgs F st.dbgs } else st
  (runOnUses debug F uses st1, false)

/-- The body of the loop of `print` for one record. -/
def printRecord (mismatch : TypeMismatchRecord) (O : String) : String :=
  let O1 := O ++ "Function '" ++ write_escaped mismatch.functionName ++ "'"
  let O2 := if mismatch.hasLine then O1 ++ " call on line '" ++ toString mismatch.line ++ "'"
    else O1
  O2 ++ ": argument type mismatch. " ++ "Argument #" ++ toString mismatch.argNo ++ " "
    ++ "Expected '" ++ mismatch.expectedType.display ++ "' "
    ++ "but argument is of type '" ++ mismatch.actualType.display ++ "'\n"

/-- The loop of `print` over the records, appending to the stream `O`. -/
def printLoop : List TypeMismatchRecord → String → String
  | [], O => O
  | mismatch :: rest, O => printLoop rest (printRecord mismatch O)

/-- The method `print(O, M)`: the stream `O` after the call.  The pass state is not
changed (the method is `const`). -/
def print (st : PassState) (O : String) : String :=
  printLoop st.typeMismatches O

/-- The method `releaseMemory()`. -/
def releaseMemory (debug : Bool) (st : PassState) : PassState :=
  let st1 : PassState :=
    if debug then { st with dbgs := st.dbgs ++ "Release memory" ++ "\n" } else st
  { st1 with typeMismatches := [] }

/-- The iterator `begin()`, as an index into `typeMismatches`. -/
def begin_ (_st : PassState) : Nat := 0

/-- The iterator `end()`, as an index into `typeMismatches`. -/
def end_ (st : PassState) : Nat := st.typeMismatches.length

end FunctionArgumentUsagePass

open FunctionArgumentUsagePass

/-- The value of `line` that `analyzeFunctionUsages` passes to the record constructor. -/
def recordedLine (debug : Bool) (call : CallBase) : Nat :=
  if debug then call.debugLoc.getD 0 else 0

/-- The value of `hasLine` that `analyzeFunctionUsages` passes to the record constructor. -/
def recordedHasLine (debug : Bool) (call : CallBase) : Bool :=
  debug && call.debugLoc.isSome

/-- The mismatch record of position `i`, if there is one: position `i` exists in both the
formal list `fas` and the actual list `phas`, and the type IDs there differ. -/
def recordAt (name : String) (line : Nat) (hasLine : Bool) (fas : List Argument)
    (phas : List Value) (i : Nat) : Option TypeMismatchRecord :=
  match fas[i]?, phas[i]? with
  | some fa, some pha =>
    if fa.type.typeID ≠ pha.type.typeID then some ⟨name, line, hasLine, i, fa.type, pha.type⟩
    else none
  | _, _ => none

/-- The records of one call site: one for each compared position `i < min m n` whose type IDs
differ, in increasing order of `i`. -/
def callRecords (debug : Bool) (F : Function) (call : CallBase) : List TypeMismatchRecord :=
  (List.range (min F.args.length call.args.length)).filterMap
    (recordAt F.name (recordedLine debug call) (recordedHasLine debug call) F.args call.args)

/-- The records of one use of `F`: those of the call or invoke instruction using it, none for
any other user. -/
def useRecords (debug : Bool) (F : Function) : User → List TypeMismatchRecord
  | User.CallInst call => callRecords debug F call
  | User.InvokeInst call => callRecords debug F call
  | User.Other => []

/-- Renumbering of a record by an offset. -/
def shiftArgNo (k : Nat) (r : TypeMismatchRecord) : TypeMismatchRecord :=
  { r with argNo := k + r.argNo }

/-- Whether position `i` is a compared position of `F` and `call` whose type IDs differ. -/
def disagreeAt (F : Function) (call : CallBase) (i : Nat) : Bool :=
  match F.args[i]?, call.args[i]? with
  | some fa, some pha => decide (fa.type.typeID ≠ pha.type.typeID)
  | _, _ => false


/-- The line `print` writes for one record: the escaped function name, the call-site line
when the record has one, the argument index, and the display strings of the expected and the
actual type, ended by a newline. -/
def recordLine (r : TypeMismatchRecord) : String :=
  "Function '" ++ write_escaped r.functionName ++ "'"
    ++ (if r.hasLine then " call on line '" ++ toString r.line ++ "'" else "")
    ++ ": argument type mismatch. " ++ "Argument #" ++ toString r.argNo ++ " "
    ++ "Expected '" ++ r.expectedType.display ++ "' "
    ++ "but argument is of type '" ++ r.actualType.display ++ "'\n"

/-! ## The method lister `clang_list_methods.cc` -/

/-- What a program leaves behind: the text written to standard output, the text written to
standard error, and the value returned by `main`. -/
structure ProcessResult where
  stdout : String
  stderr : String
  exitCode : Int
  deriving DecidableEq, Repr

namespace clang_list_methods

/-- The cursor kinds the program tells apart (from `clang-c/Index.h`); `other` stands for
every other kind, among them the kind of the null cursor. -/
inductive CXCursorKind where
  | CXCursor_TranslationUnit
  | CXCursor_CXXMethod
  | CXCursor_FunctionDecl
  | CXCursor_Constructor
  | CXCursor_Destructor
  | CXCursor_FunctionTemplate
  | other (code : Nat)
  deriving DecidableEq, Repr

open CXCursorKind

/-- A cursor: a handle into the syntax tree owned by libclang. -/
abbrev CXCursor := Nat

/-- A parsed translation unit, as the observations libclang offers on its cursors:
`clang_getTranslationUnitCursor`, `clang_getCursorKind`, `clang_getCursorSpelling`,
`clang_getCursorSemanticParent`, the children `clang_visitChildren` walks,
`clang_Location_isFromMainFile` of the cursor location, `clang_isCursorDefinition`, the
spelling of the result type, `clang_Cursor_getNumArguments`, `clang_Cursor_getArgument`, the
spelling of `clang_getArgType`, and the file, line and column of
`clang_getPresumedLocation`. -/
structure TranslationUnit where
  root : CXCursor
  kind : CXCursor → CXCursorKind
  spelling : CXCursor → String
  semanticParent : CXCursor → CXCursor
  children : CXCursor → List CXCursor
  isFromMainFile : CXCursor → Bool
  isCursorDefinition : CXCursor → Bool
  resultTypeSpelling : CXCursor → String
  numArguments : CXCursor → Int
  argument : CXCursor → Nat → CXCursor
  argTypeSpelling : CXCursor → Nat → String
  presumedLocation : CXCursor → String × Nat × Nat

/-- The constant `ENDLINE`. -/
def ENDLINE : String := "\n"

/-- The constant `EMPTY`. -/
def EMPTY : String := ""

/-- The constant `SPACE`. -/
def SPACE : String := " "

/-- The constant `DEFINITION_MARKER`, an opening and a closing brace. -/
def DEFINITION_MARKER : String := "\x7b\x7d"

/-- The function `isDefinition`. -/
def isDefinition (tu : TranslationUnit) (cursor : CXCursor) : String :=
  if tu.isCursorDefinition cursor then DEFINITION_MARKER else EMPTY

/-- The recursive function `getFullQualifiedName`; `fuel` bounds the depth of the recursion,
and `none` is returned when it is exhausted. -/
def getFullQualifiedName (tu : TranslationUnit) : Nat → CXCursor → Option String
  | 0, _ => none
  | fuel + 1, cursor =>
    let qualifiedName := tu.spelling cursor
    let semanticParent := tu.semanticParent cursor
    if tu.kind semanticParent = CXCursor_TranslationUnit then
      some qualifiedName
    else
      (getFullQualifiedName tu fuel semanticParent).map fun q => q ++ "::" ++ qualifiedName

/-- The loop of `getFunctionPrototype` over the argument indices `i`, `is` being the indices
still to visit. -/
def prototypeArgs (tu : TranslationUnit) (cursor : CXCursor) (num_args : Int) :
    List Nat → String → String
  | [], resultstream => resultstream
  | i :: is, resultstream =>
    let arg_cursor := tu.argument cursor i
    let arg_name0 := tu.spelling arg_cursor
    let arg_name := if arg_name0.isEmpty then "no type" else arg_name0
    let arg_data_type := tu.argTypeSpelling cursor i
    let r1 := resultstream ++ arg_data_type ++ SPACE ++ arg_name
    let r2 := if (i : Int) < num_args - 1 then r1 ++ "," ++ SPACE else r1
    prototypeArgs tu cursor num_args is r2

/-- The function `getFunctionPrototype`. -/
def getFunctionPrototype (tu : TranslationUnit) (fuel : Nat) (cursor : CXCursor) :
    Option String :=
  let result_type := tu.resultTypeSpelling cursor
  match getFullQualifiedName tu fuel cursor with
  | none => none
  | some function_name =>
    let resultstream := result_type ++ SPACE ++ function_name ++ "("
    let num_args := tu.numArguments cursor
    let r1 := prototypeArgs tu cursor num_args (List.range num_args.toNat) resultstream
    some (r1 ++ ")" ++ SPACE ++ isDefinition tu cursor ++ ENDLINE)

/-- The function `getFunctionLocation`. -/
def getFunctionLocation (tu : TranslationUnit) (cursor : CXCursor) : String :=
  let loc := tu.presumedLocation cursor
  "" ++ loc.1 ++ ":" ++ toString loc.2.1 ++ ":" ++ toString loc.2.2 ++ "\n"

/-- The values of `enum CXChildVisitResult`. -/
inductive CXChildVisitResult where
  | CXChildVisit_Break
  | CXChildVisit_Continue
  | CXChildVisit_Recurse
  deriving DecidableEq, Repr

open CXChildVisitResult

/-- The visitor `visitFunction`: the result it returns and the standard output after it. -/
def visitFunction (tu : TranslationUnit) (fuel : Nat) (cursor : CXCursor) (cout : String) :
    Option (CXChildVisitResult × String) :=
  if tu.isFromMainFile cursor = false then
    some (CXChildVisit_Continue, cout)
  else
    let kind := tu.kind cursor
    if kind = CXCursor_CXXMethod ∨ kind = CXCursor_FunctionDecl ∨ kind = CXCursor_Constructor
        ∨ kind = CXCursor_Destructor ∨ kind = CXCursor_FunctionTemplate then
      match getFunctionPrototype tu fuel cursor with
      | none => none
      | some proto =>
        some (CXChildVisit_Continue, cout ++ getFunctionLocation tu cursor ++ proto ++ "\n")
    else
      some (CXChildVisit_Recurse, cout)

/-- The traversal of `clang_visitChildren` (library routine) with the visitor
`visitFunction`: the cursors of `pending` are visited in order; after `Continue` the traversal
goes on with the next cursor, after `Recurse` with the children of the visited cursor first,
and `Break` ends it.  `fuel` bounds the number of visits. -/
def visitCursors (tu : TranslationUnit) (depth : Nat) :
    Nat → List CXCursor → String → Option String
  | _, [], cout => some cout
  | 0, _ :: _, _ => none
  | fuel + 1, cursor :: pending, cout =>
    match visitFunction tu depth cursor cout with
    | none => none
    | some (CXChildVisit_Break, cout1) => some cout1
    | some (CXChildVisit_Continue, cout1) => visitCursors tu depth fuel pending cout1
    | some (CXChildVisit_Recurse, cout1) =>
      visitCursors tu depth fuel (tu.children cursor ++ pending) cout1

/-- The function `main`, after the command line is parsed into `FileName`.
`clang_parseTranslationUnit` is the front-end: it gives `none` (a null translation unit) when
the file cannot be read or parsed.  For a null translation unit
`clang_getTranslationUnitCursor` gives the null cursor, which has no children to visit. -/
def main (fuel : Nat) (clang_parseTranslationUnit : String → Option TranslationUnit)
    (FileName : String) : Option ProcessResult :=
  let translationUnit := clang_parseTranslationUnit FileName
  let cout : Option String :=
    match translationUnit with
    | none => some ""
    | some tu => visitCursors tu fuel fuel (tu.children tu.root) ""
  match cout with
  | none => none
  | some out => some ⟨out, "", 0⟩

/-- The cursor `cursor` lies in the enclosing scopes with the spellings `scopes`, listed from
the innermost to the outermost: no scope is the translation unit, and the semantic parent of
the outermost scope is (or, without scopes, the semantic parent of `cursor` is) the
translation unit. -/
def enclosedBy (tu : TranslationUnit) : List String → CXCursor → Prop
  | [], cursor => tu.kind (tu.semanticParent cursor) = CXCursor_TranslationUnit
  | a :: scopes, cursor =>
    tu.kind (tu.semanticParent cursor) ≠ CXCursor_TranslationUnit
      ∧ tu.spelling (tu.semanticParent cursor) = a
      ∧ enclosedBy tu scopes (tu.semanticParent cursor)

/-- Whether `enclosedBy` holds can be computed. -/
instance enclosedBy.decidable (tu : TranslationUnit) :
    ∀ (scopes : List String) (cursor : CXCursor), Decidable (enclosedBy tu scopes cursor)
  | [], cursor =>
    inferInstanceAs
      (Decidable (tu.kind (tu.semanticParent cursor) = CXCursor_TranslationUnit))
  | a :: scopes, cursor =>
    have := enclosedBy.decidable tu scopes (tu.semanticParent cursor)
    inferInstanceAs
      (Decidable (tu.kind (tu.semanticParent cursor) ≠ CXCursor_TranslationUnit
        ∧ tu.spelling (tu.semanticParent cursor) = a
        ∧ enclosedBy tu scopes (tu.semanticParent cursor)))

end clang_list_methods

/-! ## The basic-block counter `llvm_bb_counter.cc` -/

namespace llvm_bb_counter

/-- The contents of a file read by `MemoryBuffer::getFile`. -/
abbrev MemoryBuffer := List Nat

/-- A function of a module, as the program observes it: `getName()`, `isDeclaration()` and
`size()`, the number of basic blocks. -/
structure ModuleFunction where
  name : String
  isDeclaration : Bool
  size : Nat
  deriving DecidableEq, Repr

/-- A module, as its function list `getFunctionList()`. -/
abbrev Module := List ModuleFunction

/-- The loop of `main` over the function list. -/
def printFunctions : List ModuleFunction → String → String
  | [], outs => outs
  | I :: rest, outs =>
    if I.isDeclaration = false then
      printFunctions rest
        (outs ++ I.name ++ " has " ++ toString I.size ++ " basic block(s).\n")
    else printFunctions rest outs

/-- The function `main`, after the command line is parsed into `FileName`.  `getFile` is
`MemoryBuffer::getFile` and `parseBitcodeFile` the bitcode reader; a failure of either is
`Except.error msg`, an error whose `std::error_code` is set and whose `message()` is `msg`. -/
def main (getFile : String → Except String MemoryBuffer)
    (parseBitcodeFile : MemoryBuffer → Except String Module) (FileName : String) :
    ProcessResult :=
  match getFile FileName with
  | Except.error msg => ⟨"", "" ++ msg, -1⟩
  | Except.ok mb =>
    match parseBitcodeFile mb with
    | Except.error msg => ⟨"", "" ++ "Error reading bitcode: " ++ msg ++ "\n", -1⟩
    | Except.ok m => ⟨printFunctions m "", "", 0⟩

end llvm_bb_counter

/-! ## Concrete inputs -/

namespace Examples

/-- The LLVM type of a C `int`. -/
def i32 : LLVMType := ⟨TypeID.IntegerTyID, "i32"⟩

/-- The LLVM type of a C `long long`. -/
def i64 : LLVMType := ⟨TypeID.IntegerTyID, "i64"⟩

/-- The LLVM type `double`. -/
def double : LLVMType := ⟨TypeID.DoubleTyID, "double"⟩

/-- The LLVM pointer type. -/
def ptr : LLVMType := ⟨TypeID.PointerTyID, "ptr"⟩

/-- A function `f(int a, long long b)`. -/
def fIntLong : Function := ⟨"f", [⟨some "a", i32⟩, ⟨some "b", i64⟩]⟩

/-- The call `f(x)` with `x : int`, in the function `main`. -/
def callX : CallBase := ⟨1, "main", none, [⟨some "x", i32⟩]⟩

/-- The call `f(y, z)` with `y : long long` and `z : int`, in the function `main`. -/
def callYZ : CallBase := ⟨2, "main", none, [⟨some "y", i64⟩, ⟨some "z", i32⟩]⟩

/-- A function `f(int a)`. -/
def fInt : Function := ⟨"f", [⟨some "a", i32⟩]⟩

/-- A call in the function `main`, on source line 42, whose first argument is a `double`. -/
def callDouble : CallBase := ⟨3, "main", some 42, [⟨some "d", double⟩]⟩

/-- The instruction `call @f(ptr @f)`: it uses `f` twice, as the callee and as the argument. -/
def callSelf : CallBase := ⟨4, "main", none, [⟨some "f", ptr⟩]⟩

/-- A function `g(int a, double b)`. -/
def gIntDouble : Function := ⟨"g", [⟨some "a", i32⟩, ⟨none, double⟩]⟩

/-- A call passing a `double`, an `int` and a pointer, in the function `caller`, line 7. -/
def callThree : CallBase :=
  ⟨5, "caller", some 7, [⟨some "p", double⟩, ⟨none, i32⟩, ⟨some "q", ptr⟩]⟩

/-- The record of the formatter example of the specification. -/
def recF : TypeMismatchRecord :=
  ⟨"f", 42, true, 0, ⟨TypeID.IntegerTyID, "int"⟩, ⟨TypeID.IntegerTyID, "long long"⟩⟩

/-- A record for a function whose name starts with the byte 1, as the names that switch off
symbol mangling do. -/
def recEscaped : TypeMismatchRecord := ⟨"\x01_stat", 0, false, 0, i32, ptr⟩

open clang_list_methods in
/-- The translation unit of `namespace llvmdemo \x7b class A \x7b void dome(); \x7d; \x7d` followed by
`std::string justAFunction();`: cursor 0 is the translation unit, 1 the namespace, 2 the
class, 3 the method, 4 the function; any other number is the null cursor. -/
def demoUnit : TranslationUnit where
  root := 0
  kind := fun c =>
    match c with
    | 0 => CXCursorKind.CXCursor_TranslationUnit
    | 1 => CXCursorKind.other 22
    | 2 => CXCursorKind.other 4
    | 3 => CXCursorKind.CXCursor_CXXMethod
    | 4 => CXCursorKind.CXCursor_FunctionDecl
    | _ => CXCursorKind.other 70
  spelling := fun c =>
    match c with
    | 0 => "demo.cc"
    | 1 => "llvmdemo"
    | 2 => "A"
    | 3 => "dome"
    | 4 => "justAFunction"
    | _ => ""
  semanticParent := fun c =>
    match c with
    | 1 => 0
    | 2 => 1
    | 3 => 2
    | 4 => 0
    | _ => 99
  children := fun c =>
    match c with
    | 0 => [1, 4]
    | 1 => [2]
    | 2 => [3]
    | _ => []
  isFromMainFile := fun c => decide (c < 5)
  isCursorDefinition := fun _ => false
  resultTypeSpelling := fun c =>
    match c with
    | 3 => "void"
    | 4 => "std::string"
    | _ => ""
  numArguments := fun c =>
    match c with
    | 3 => 0
    | 4 => 0
    | _ => -1
  argument := fun _ _ => 99
  argTypeSpelling := fun _ _ => ""
  presumedLocation := fun c => ("demo.cc", c + 1, 1)

/-- A file that cannot be read is reported by `MemoryBuffer::getFile` with this message. -/
def getFileFails : String → Except String llvm_bb_counter.MemoryBuffer :=
  fun _ => Except.error "No such file or directory"

/-- A bitcode reader, never reached when the file cannot be read. -/
def parseEmpty : llvm_bb_counter.MemoryBuffer → Except String llvm_bb_counter.Module :=
  fun _ => Except.ok []

end Examples
/-! ## Lemmas on the pass -/

theorem shiftArgNo_zero : shiftArgNo 0 = id := by
  funext r
  cases r
  simp [shiftArgNo]

theorem shiftArgNo_succ (k : Nat) (r : TypeMismatchRecord) :
    shiftArgNo k (shiftArgNo 1 r) = shiftArgNo (k + 1) r := by
  cases r
  simp [shiftArgNo, Nat.add_assoc]

theorem recordAt_cons_succ (name : String) (line : Nat) (hasLine : Bool) (fa : Argument)
    (fas : List Argument) (pha : Value) (phas : List Value) (i : Nat) :
    recordAt name line hasLine (fa :: fas) (pha :: phas) (i + 1)
      = (recordAt name line hasLine fas phas i).map (shiftArgNo 1) := by
  unfold recordAt
  simp only [List.getElem?_cons_succ]
  cases fas[i]? <;> cases phas[i]? <;> simp [shiftArgNo]
  split <;> simp [shiftArgNo, Nat.add_comm]

theorem recordAt_cons_zero (name : String) (line : Nat) (hasLine : Bool) (fa : Argument)
    (fas : List Argument) (pha : Value) (phas : List Value) :
    recordAt name line hasLine (fa :: fas) (pha :: phas) 0
      = if fa.type.typeID ≠ pha.type.typeID then
          some ⟨name, line, hasLine, 0, fa.type, pha.type⟩
        else none := by
  simp [recordAt]

theorem filterMap_recordAt_cons (name : String) (line : Nat) (hasLine : Bool) (fa : Argument)
    (fas : List Argument) (pha : Value) (phas : List Value) (k : Nat) :
    ((List.range (min (fa :: fas).length (pha :: phas).length)).filterMap
        (recordAt name line hasLine (fa :: fas) (pha :: phas))).map (shiftArgNo k)
      = (if fa.type.typeID ≠ pha.type.typeID then
          [(⟨name, line, hasLine, k, fa.type, pha.type⟩ : TypeMismatchRecord)] else [])
        ++ ((List.range (min fas.length phas.length)).filterMap
            (recordAt name line hasLine fas phas)).map (shiftArgNo (k + 1)) := by
  have hmin : min (fa :: fas).length (pha :: phas).length
      = min fas.length phas.length + 1 := by
    simp [Nat.succ_min_succ]
  have hfun : (recordAt name line hasLine (fa :: fas) (pha :: phas)) ∘ Nat.succ
      = fun i => (recordAt name line hasLine fas phas i).map (shiftArgNo 1) := by
    funext i
    exact recordAt_cons_succ name line hasLine fa fas pha phas i
  have hmap : ((List.range (min fas.length phas.length)).filterMap
        (fun i => (recordAt name line hasLine fas phas i).map (shiftArgNo 1))).map
          (shiftArgNo k)
      = ((List.range (min fas.length phas.length)).filterMap
          (recordAt name line hasLine fas phas)).map (shiftArgNo (k + 1)) := by
    rw [← List.map_filterMap, List.map_map]
    congr 1
    funext r
    exact shiftArgNo_succ k r
  rw [hmin, List.range_succ_eq_map, List.filterMap_cons, List.filterMap_map, hfun,
    recordAt_cons_zero, ← hmap]
  by_cases hne : fa.type.typeID ≠ pha.type.typeID
  · simp [hne, shiftArgNo]
  · simp [hne]

theorem analyzeStep_typeMismatches (debug : Bool) (F : Function) (line : Nat)
    (hasLine : Bool) (argNo : Nat) (fa : Argument) (pha : Value) (st : PassState) :
    (analyzeStep debug F line hasLine argNo fa pha st).typeMismatches
      = st.typeMismatches ++
        (if fa.type.typeID ≠ pha.type.typeID then
          [(⟨F.name, line, hasLine, argNo, fa.type, pha.type⟩ : TypeMismatchRecord)] else []) := by
  unfold analyzeStep
  by_cases hne : fa.type.typeID ≠ pha.type.typeID
  · cases debug <;> simp [hne]
  · cases debug <;> simp [hne]

theorem analyzeStep_counter (debug : Bool) (F : Function) (line : Nat)
    (hasLine : Bool) (argNo : Nat) (fa : Argument) (pha : Value) (st : PassState) :
    (analyzeStep debug F line hasLine argNo fa pha st).NumOfMismatches
      = st.NumOfMismatches + (if fa.type.typeID ≠ pha.type.typeID then 1 else 0) := by
  unfold analyzeStep
  by_cases hne : fa.type.typeID ≠ pha.type.typeID
  · cases debug <;> simp [hne, Statistic.incr]
  · cases debug <;> simp [hne]

theorem analyzeLoop_typeMismatches (debug : Bool) (F : Function) (line : Nat) (hasLine : Bool)
    (fas : List Argument) :
    ∀ (phas : List Value) (k : Nat) (st : PassState),
      (analyzeLoop debug F line hasLine k fas phas st).typeMismatches
        = st.typeMismatches ++
          ((List.range (min fas.length phas.length)).filterMap
            (recordAt F.name line hasLine fas phas)).map (shiftArgNo k) := by
  induction fas with
  | nil => intro phas k st; simp [analyzeLoop]
  | cons fa fas ih =>
    intro phas k st
    cases phas with
    | nil => simp [analyzeLoop]
    | cons pha phas =>
      rw [analyzeLoop, ih, filterMap_recordAt_cons, analyzeStep_typeMismatches,
        List.append_assoc]

/-- The counter grows by exactly the number of records the loop appends. -/
theorem analyzeLoop_counter (debug : Bool) (F : Function) (line : Nat) (hasLine : Bool)
    (fas : List Argument) :
    ∀ (phas : List Value) (k : Nat) (st : PassState),
      (analyzeLoop debug F line hasLine k fas phas st).NumOfMismatches + st.typeMismatches.length
        = st.NumOfMismatches
          + (analyzeLoop debug F line hasLine k fas phas st).typeMismatches.length := by
  induction fas with
  | nil => intro phas k st; simp [analyzeLoop, Nat.add_comm]
  | cons fa fas ih =>
    intro phas k st
    cases phas with
    | nil => simp [analyzeLoop, Nat.add_comm]
    | cons pha phas =>
      rw [analyzeLoop]
      have h := ih phas (k + 1) (analyzeStep debug F line hasLine k fa pha st)
      rw [analyzeStep_typeMismatches, analyzeStep_counter] at h
      by_cases hne : fa.type.typeID ≠ pha.type.typeID
      · simp [hne] at h
        omega
      · simp [hne] at h
        omega

theorem debugHeader_hasLine (debug : Bool) (call : CallBase) (out : String) :
    (debugHeader debug call out).1 = recordedHasLine debug call := by
  unfold debugHeader recordedHasLine
  cases debug <;> cases call.debugLoc <;> simp

theorem debugHeader_line (debug : Bool) (call : CallBase) (out : String) :
    (debugHeader debug call out).2.1 = recordedLine debug call := by
  unfold debugHeader recordedLine
  cases debug <;> cases call.debugLoc <;> simp

theorem analyzeFunctionUsages_typeMismatches (debug : Bool) (F : Function) (call : CallBase)
    (st : PassState) :
    (analyzeFunctionUsages debug F call st).typeMismatches
      = st.typeMismatches ++ callRecords debug F call := by
  unfold analyzeFunctionUsages callRecords
  simp only [analyzeLoop_typeMismatches, shiftArgNo_zero, List.map_id, debugHeader_hasLine,
    debugHeader_line]

theorem analyzeFunctionUsages_counter (debug : Bool) (F : Function) (call : CallBase)
    (st : PassState) :
    (analyzeFunctionUsages debug F call st).NumOfMismatches + st.typeMismatches.length
      = st.NumOfMismatches + (analyzeFunctionUsages debug F call st).typeMismatches.length := by
  unfold analyzeFunctionUsages
  exact analyzeLoop_counter debug F _ _ F.args call.args 0 _

theorem runOnUse_typeMismatches (debug : Bool) (F : Function) (u : User) (st : PassState) :
    (runOnUse debug F u st).typeMismatches = st.typeMismatches ++ useRecords debug F u := by
  cases u <;> simp [runOnUse, useRecords, analyzeFunctionUsages_typeMismatches]

theorem runOnUse_counter (debug : Bool) (F : Function) (u : User) (st : PassState) :
    (runOnUse debug F u st).NumOfMismatches + st.typeMismatches.length
      = st.NumOfMismatches + (runOnUse debug F u st).typeMismatches.length := by
  cases u
  · exact analyzeFunctionUsages_counter debug F _ st
  · exact analyzeFunctionUsages_counter debug F _ st
  · simp [runOnUse, Nat.add_comm]

theorem runOnUses_typeMismatches (debug : Bool) (F : Function) (uses : List User) :
    ∀ st : PassState,
      (runOnUses debug F uses st).typeMismatches
        = st.typeMismatches ++ uses.flatMap (useRecords debug F) := by
  induction uses with
  | nil => intro st; simp [runOnUses]
  | cons u rest ih =>
    intro st
    rw [runOnUses, ih, runOnUse_typeMismatches, List.flatMap_cons, List.append_assoc]

theorem runOnUses_counter (debug : Bool) (F : Function) (uses : List User) :
    ∀ st : PassState,
      (runOnUses debug F uses st).NumOfMismatches + st.typeMismatches.length
        = st.NumOfMismatches + (runOnUses debug F uses st).typeMismatches.length := by
  induction uses with
  | nil => intro st; simp [runOnUses, Nat.add_comm]
  | cons u rest ih =>
    intro st
    rw [runOnUses]
    have h1 := ih (runOnUse debug F u st)
    have h2 := runOnUse_counter debug F u st
    omega

theorem runOnFunction_typeMismatches (debug : Bool) (F : Function) (uses : List User)
    (st : PassState) :
    (runOnFunction debug F uses st).1.typeMismatches
      = st.typeMismatches ++ uses.flatMap (useRecords debug F) := by
  unfold runOnFunction
  cases debug <;> simp [runOnUses_typeMismatches]

theorem runOnFunction_counter (debug : Bool) (F : Function) (uses : List User)
    (st : PassState) :
    (runOnFunction debug F uses st).1.NumOfMismatches + st.typeMismatches.length
      = st.NumOfMismatches + (runOnFunction debug F uses st).1.typeMismatches.length := by
  unfold runOnFunction
  cases debug
  · exact runOnUses_counter false F uses st
  · exact runOnUses_counter true F uses _

theorem mem_callRecords (debug : Bool) (F : Function) (call : CallBase)
    (r : TypeMismatchRecord) (h : r ∈ callRecords debug F call) :
    r.functionName = F.name ∧ r.line = recordedLine debug call
      ∧ r.hasLine = recordedHasLine debug call
      ∧ r.argNo < min F.args.length call.args.length
      ∧ F.args[r.argNo]?.map Argument.type = some r.expectedType
      ∧ call.args[r.argNo]?.map Value.type = some r.actualType
      ∧ r.expectedType.typeID ≠ r.actualType.typeID := by
  unfold callRecords at h
  rw [List.mem_filterMap] at h
  obtain ⟨i, hi, hr⟩ := h
  rw [List.mem_range] at hi
  unfold recordAt at hr
  cases hfa : F.args[i]? with
  | none => simp [hfa] at hr
  | some fa =>
    cases hpha : call.args[i]? with
    | none => simp [hfa, hpha] at hr
    | some pha =>
      simp only [hfa, hpha] at hr
      by_cases hne : fa.type.typeID ≠ pha.type.typeID
      · rw [if_pos hne] at hr
        cases hr
        refine ⟨rfl, rfl, rfl, ?_, ?_, ?_, hne⟩
        · simpa using hi
        · simp [hfa]
        · simp [hpha]
      · rw [if_neg hne] at hr
        cases hr

theorem recordAt_argNo (name : String) (line : Nat) (hasLine : Bool) (fas : List Argument)
    (phas : List Value) (i : Nat) (r : TypeMismatchRecord)
    (h : recordAt name line hasLine fas phas i = some r) : r.argNo = i := by
  unfold recordAt at h
  split at h
  · split at h
    · cases h; rfl
    · cases h
  · cases h

theorem recordAt_length (name : String) (line : Nat) (hasLine : Bool) (F : Function)
    (call : CallBase) (i : Nat) :
    (recordAt name line hasLine F.args call.args i).toList.length
      = if disagreeAt F call i then 1 else 0 := by
  unfold recordAt disagreeAt
  cases F.args[i]? <;> cases call.args[i]? <;> simp
  split <;> simp_all

theorem recordAt_none_of_le (name : String) (line : Nat) (hasLine : Bool)
    (fas : List Argument) (phas : List Value) (i : Nat)
    (h : min fas.length phas.length ≤ i) :
    recordAt name line hasLine fas phas i = none := by
  unfold recordAt
  by_cases h1 : fas.length ≤ i
  · rw [List.getElem?_eq_none h1]
  · have h2 : phas.length ≤ i := by omega
    rw [List.getElem?_eq_none h2]
    cases fas[i]? <;> rfl

theorem filter_argNo_filterMap_range (f : Nat → Option TypeMismatchRecord)
    (hf : ∀ j r, f j = some r → r.argNo = j) (i : Nat) :
    ∀ n : Nat, ((List.range n).filterMap f).filter (fun r => decide (r.argNo = i))
      = if i < n then (f i).toList else [] := by
  intro n
  induction n with
  | zero => simp
  | succ n ih =>
    rw [List.range_succ, List.filterMap_append, List.filter_append, ih]
    by_cases hin : i < n
    · have h1 : i < n + 1 := by omega
      have h2 : n ≠ i := by omega
      rw [if_pos hin, if_pos h1]
      cases hfn : f n with
      | none => simp [hfn]
      | some r =>
        have := hf n r hfn
        simp [hfn, this, h2]
    · by_cases hi : i = n
      · subst hi
        rw [if_neg hin, if_pos (Nat.lt_succ_self i)]
        cases hfn : f i with
        | none => simp [hfn]
        | some r =>
          have := hf i r hfn
          simp [hfn, this]
      · have h1 : ¬ i < n + 1 := by omega
        have h2 : n ≠ i := fun h => hi h.symm
        rw [if_neg hin, if_neg h1]
        cases hfn : f n with
        | none => simp [hfn]
        | some r =>
          have := hf n r hfn
          simp [hfn, this, h2]

/-- A call site contributes exactly one record for a compared position whose type IDs differ
and none for any other index. -/
theorem callRecords_count (debug : Bool) (F : Function) (call : CallBase) (i : Nat) :
    ((callRecords debug F call).filter (fun r => decide (r.argNo = i))).length
      = if disagreeAt F call i then 1 else 0 := by
  unfold callRecords
  rw [filter_argNo_filterMap_range _ (fun j r h => recordAt_argNo _ _ _ _ _ j r h)]
  by_cases hi : i < min F.args.length call.args.length
  · rw [if_pos hi, recordAt_length]
  · rw [if_neg hi]
    have hnone := recordAt_none_of_le F.name (recordedLine debug call)
      (recordedHasLine debug call) F.args call.args i (by omega)
    have hlen := recordAt_length F.name (recordedLine debug call)
      (recordedHasLine debug call) F call i
    rw [hnone] at hlen
    simpa using hlen

theorem printRecord_eq (r : TypeMismatchRecord) (O : String) :
    printRecord r O = O ++ recordLine r := by
  unfold printRecord recordLine
  cases r.hasLine
  · simp only [Bool.false_eq_true, if_false, String.append_assoc, String.empty_append]
  · simp only [if_true, String.append_assoc]

theorem foldl_append_eq (l : List String) :
    ∀ acc : String, l.foldl (fun r s => r ++ s) acc = acc ++ l.foldl (fun r s => r ++ s) "" := by
  induction l with
  | nil => intro acc; simp
  | cons a l ih =>
    intro acc
    rw [List.foldl_cons, ih, List.foldl_cons, ih ("" ++ a)]
    simp [String.append_assoc]

theorem printLoop_eq (rs : List TypeMismatchRecord) :
    ∀ O : String, printLoop rs O = O ++ String.join (rs.map recordLine) := by
  induction rs with
  | nil => intro O; simp [printLoop, String.join]
  | cons r rs ih =>
    intro O
    rw [printLoop, ih, printRecord_eq]
    simp only [String.join, List.map_cons, List.foldl_cons]
    rw [foldl_append_eq _ ("" ++ recordLine r)]
    simp [String.append_assoc]

theorem printLoop_append (rs ss : List TypeMismatchRecord) :
    ∀ O : String, printLoop (rs ++ ss) O = printLoop ss (printLoop rs O) := by
  induction rs with
  | nil => intro O; rfl
  | cons r rs ih => intro O; simp [printLoop, ih]

/-! ## Lemmas on the method lister -/

theorem intercalate_go_append (s n : String) (xs : List String) :
    ∀ acc : String,
      String.intercalate.go acc s (xs ++ [n]) = String.intercalate.go acc s xs ++ s ++ n := by
  induction xs with
  | nil => intro acc; simp [String.intercalate.go]
  | cons x xs ih => intro acc; simp [String.intercalate.go, ih]

theorem intercalate_append_singleton (s n x : String) (xs : List String) :
    s.intercalate ((x :: xs) ++ [n]) = s.intercalate (x :: xs) ++ s ++ n := by
  simp only [List.cons_append, String.intercalate]
  exact intercalate_go_append s n xs x

open clang_list_methods in
theorem getFullQualifiedName_of_enclosedBy (tu : TranslationUnit) (inner : List String) :
    ∀ (cursor : CXCursor) (fuel : Nat), enclosedBy tu inner cursor → inner.length < fuel →
      getFullQualifiedName tu fuel cursor
        = some ("::".intercalate (inner.reverse ++ [tu.spelling cursor])) := by
  induction inner with
  | nil =>
    intro cursor fuel h hfuel
    cases fuel with
    | zero => exact absurd hfuel (Nat.lt_irrefl 0)
    | succ fuel =>
      unfold enclosedBy at h
      simp [getFullQualifiedName, h, String.intercalate, String.intercalate.go]
  | cons a scopes ih =>
    intro cursor fuel h hfuel
    cases fuel with
    | zero => exact absurd hfuel (Nat.not_lt_zero _)
    | succ fuel =>
      unfold enclosedBy at h
      obtain ⟨hk, hs, hrest⟩ := h
      have hlt : scopes.length < fuel := by
        simp only [List.length_cons] at hfuel
        omega
      have hp := ih (tu.semanticParent cursor) fuel hrest hlt
      rw [hs] at hp
      rw [getFullQualifiedName]
      simp only [hk, if_false, hp, Option.map_some']
      congr 1
      rw [List.reverse_cons]
      cases hrev : scopes.reverse ++ [a] with
      | nil => simp at hrev
      | cons x xs => rw [intercalate_append_singleton]

/-! ## The qualified-name resolver -/

open clang_list_methods in
/-- C1: for a cursor `N` whose chain of semantic parents reaches the translation unit after
the enclosing scopes with spellings `scopes` (outermost first), `getFullQualifiedName`
returns, with any recursion budget above the number of scopes, the spellings of the scopes
and of `N` joined by `::`; without enclosing scopes it returns the spelling of `N` alone. -/
theorem getFullQualifiedName_joins_scopes (tu : TranslationUnit) (scopes : List String)
    (N : CXCursor) (fuel : Nat) (h : enclosedBy tu scopes.reverse N)
    (hfuel : scopes.length < fuel) :
    getFullQualifiedName tu fuel N = some ("::".intercalate (scopes ++ [tu.spelling N]))
      ∧ (scopes = [] → getFullQualifiedName tu fuel N = some (tu.spelling N)) := by
  have hmain := getFullQualifiedName_of_enclosedBy tu scopes.reverse N fuel h
    (by simpa using hfuel)
  rw [List.reverse_reverse] at hmain
  refine ⟨hmain, ?_⟩
  intro hnil
  subst hnil
  simpa [String.intercalate, String.intercalate.go] using hmain

open clang_list_methods in
/-- C1, at the method `dome` of the class `A` of the namespace `llvmdemo`. -/
theorem getFullQualifiedName_joins_scopes_witness :
    enclosedBy Examples.demoUnit ["llvmdemo", "A"].reverse 3
      ∧ getFullQualifiedName Examples.demoUnit 3 3 = some "llvmdemo::A::dome" :=
  ⟨by decide,
    (getFullQualifiedName_joins_scopes Examples.demoUnit ["llvmdemo", "A"] 3 3
      (by decide) (by decide)).1.trans (by decide)⟩

/-! ## The call-site argument type checker -/

/-- C2: `analyzeFunctionUsages` keeps the accumulated records as a prefix and appends, in
increasing order of `i`, exactly one record for each `i < min m n` whose formal and actual
type IDs differ, with `argNo = i`, `expectedType = F_i` and `actualType = A_i`; no appended
record has an index `i >= min m n`. -/
theorem analyzeFunctionUsages_appends_mismatches (debug : Bool) (F : Function)
    (call : CallBase) (st : PassState) :
    (analyzeFunctionUsages debug F call st).typeMismatches
        = st.typeMismatches ++
          (List.range (min F.args.length call.args.length)).filterMap
            (recordAt F.name (recordedLine debug call) (recordedHasLine debug call)
              F.args call.args)
      ∧ (∀ (i : Nat) (fa : Argument) (pha : Value),
          F.args[i]? = some fa → call.args[i]? = some pha →
          recordAt F.name (recordedLine debug call) (recordedHasLine debug call)
              F.args call.args i
            = if fa.type.typeID ≠ pha.type.typeID then
                some ⟨F.name, recordedLine debug call, recordedHasLine debug call, i,
                  fa.type, pha.type⟩
              else none)
      ∧ (∀ r : TypeMismatchRecord,
          r ∈ (List.range (min F.args.length call.args.length)).filterMap
            (recordAt F.name (recordedLine debug call) (recordedHasLine debug call)
              F.args call.args) →
          r.argNo < min F.args.length call.args.length) := by
  refine ⟨analyzeFunctionUsages_typeMismatches debug F call st, ?_, ?_⟩
  · intro i fa pha hfa hpha
    simp [recordAt, hfa, hpha]
  · intro r hr
    exact (mem_callRecords debug F call r hr).2.2.2.1

/-- C2, at a function `g(int, double)` called with a `double`, an `int` and a pointer. -/
theorem analyzeFunctionUsages_appends_mismatches_witness :
    (analyzeFunctionUsages true Examples.gIntDouble Examples.callThree
        ⟨5, [Examples.recF], ""⟩).typeMismatches
      = [Examples.recF,
          ⟨"g", 7, true, 0, Examples.i32, Examples.double⟩,
          ⟨"g", 7, true, 1, Examples.double, Examples.i32⟩]
    ∧ (⟨"g", 7, true, 1, Examples.double, Examples.i32⟩ : TypeMismatchRecord).argNo
        < min Examples.gIntDouble.args.length Examples.callThree.args.length := by
  have h := analyzeFunctionUsages_appends_mismatches true Examples.gIntDouble
    Examples.callThree ⟨5, [Examples.recF], ""⟩
  refine ⟨?_, h.2.2 _ (by decide)⟩
  rw [h.1]
  decide

/-- C3 (as stated) fails: for the target `f` called from `main` with a `double` where an `int`
is declared, the appended record does not carry the name of the enclosing function `main`. -/
theorem functionName_not_enclosing_function :
    (analyzeFunctionUsages false Examples.fInt Examples.callDouble fresh).typeMismatches
        = [⟨"f", 0, false, 0, Examples.i32, Examples.double⟩]
      ∧ ¬ ∀ r ∈ (analyzeFunctionUsages false Examples.fInt Examples.callDouble
            fresh).typeMismatches,
          r.functionName = Examples.callDouble.parentName := by
  decide

/-- C3 (amended): every record that `analyzeFunctionUsages` appends for a call site carries,
as its `functionName`, the name of the target function `F`, whatever function encloses the
call. -/
theorem functionName_is_target_name (debug : Bool) (F : Function) (call : CallBase)
    (st : PassState) :
    (analyzeFunctionUsages debug F call st).typeMismatches
        = st.typeMismatches ++ callRecords debug F call
      ∧ ∀ r : TypeMismatchRecord, r ∈ callRecords debug F call → r.functionName = F.name :=
  ⟨analyzeFunctionUsages_typeMismatches debug F call st,
    fun r hr => (mem_callRecords debug F call r hr).1⟩

/-- C3 (amended), at the target `f` called from `main`. -/
theorem functionName_is_target_name_witness :
    (⟨"f", 42, true, 0, Examples.i32, Examples.double⟩ : TypeMismatchRecord)
        ∈ callRecords true Examples.fInt Examples.callDouble
      ∧ (⟨"f", 42, true, 0, Examples.i32, Examples.double⟩ : TypeMismatchRecord).functionName
        = Examples.fInt.name :=
  ⟨by decide,
    (functionName_is_target_name true Examples.fInt Examples.callDouble fresh).2 _
      (by decide)⟩

/-- C4: with debug output disabled, a call site that carries the debug location line 42 gets
a record without a line (`hasLine = false`, `line = 0`); with debug output enabled the same
call site gets `hasLine = true`, `line = 42`. -/
theorem line_lost_without_debug_output :
    Examples.callDouble.debugLoc = some 42
      ∧ (analyzeFunctionUsages false Examples.fInt Examples.callDouble fresh).typeMismatches
        = [⟨"f", 0, false, 0, Examples.i32, Examples.double⟩]
      ∧ (analyzeFunctionUsages true Examples.fInt Examples.callDouble fresh).typeMismatches
        = [⟨"f", 42, true, 0, Examples.i32, Examples.double⟩] := by
  decide

/-- C5 (as stated) fails: the instruction `call @f(ptr @f)` occurs twice among the uses of
`f`, and `runOnFunction` appends two records for it at argument index 0. -/
theorem duplicate_use_gives_duplicate_records :
    (runOnFunction false Examples.fInt
        [User.CallInst Examples.callSelf, User.CallInst Examples.callSelf] fresh).1.typeMismatches
      = [⟨"f", 0, false, 0, Examples.i32, Examples.ptr⟩,
         ⟨"f", 0, false, 0, Examples.i32, Examples.ptr⟩] := by
  decide

/-- C5 (amended): `runOnFunction` appends the records of the uses of `F` one use after the
other, and each use by a call or invoke instruction `c` contributes, for every index `i`,
exactly one record when `i` is a compared position whose type IDs differ and none otherwise;
a use by any other user contributes nothing.  An instruction that occurs several times among
the uses is analysed once per occurrence. -/
theorem runOnFunction_one_record_per_use_and_index (debug : Bool) (F : Function)
    (uses : List User) (st : PassState) :
    (runOnFunction debug F uses st).1.typeMismatches
        = st.typeMismatches ++ uses.flatMap (useRecords debug F)
      ∧ (∀ (c : CallBase) (i : Nat),
          ((useRecords debug F (User.CallInst c)).filter
              (fun r => decide (r.argNo = i))).length = (if disagreeAt F c i then 1 else 0)
          ∧ ((useRecords debug F (User.InvokeInst c)).filter
              (fun r => decide (r.argNo = i))).length = (if disagreeAt F c i then 1 else 0))
      ∧ useRecords debug F User.Other = [] :=
  ⟨runOnFunction_typeMismatches debug F uses st,
    fun c i => ⟨callRecords_count debug F c i, callRecords_count debug F c i⟩, rfl⟩

/-- C6: across one `runOnFunction` call the counter `NumOfMismatches` grows by exactly the
number of records the call appends, and the records produced do not depend on the value of
the counter. -/
theorem counter_incremented_once_per_record (debug : Bool) (F : Function)
    (uses : List User) (st : PassState) :
    (∃ k : Nat,
        (runOnFunction debug F uses st).1.NumOfMismatches = st.NumOfMismatches + k
        ∧ (runOnFunction debug F uses st).1.typeMismatches.length
            = st.typeMismatches.length + k)
      ∧ ∀ n : Nat,
          (runOnFunction debug F uses { st with NumOfMismatches := n }).1.typeMismatches
            = (runOnFunction debug F uses st).1.typeMismatches := by
  constructor
  · refine ⟨(uses.flatMap (useRecords debug F)).length, ?_, ?_⟩
    · have h := runOnFunction_counter debug F uses st
      rw [runOnFunction_typeMismatches, List.length_append] at h
      omega
    · rw [runOnFunction_typeMismatches, List.length_append]
  · intro n
    rw [runOnFunction_typeMismatches, runOnFunction_typeMismatches]

/-- C7: after `releaseMemory` the record sequence is empty, `begin()` equals `end()`, `print`
writes nothing, and `NumOfMismatches` has the value it had before the call. -/
theorem releaseMemory_clears_records_keeps_counter (debug : Bool) (st : PassState)
    (O : String) :
    (releaseMemory debug st).typeMismatches = []
      ∧ begin_ (releaseMemory debug st) = end_ (releaseMemory debug st)
      ∧ print (releaseMemory debug st) O = O
      ∧ (releaseMemory debug st).NumOfMismatches = st.NumOfMismatches := by
  cases debug <;> simp [releaseMemory, begin_, end_, print, printLoop]

set_option maxRecDepth 20000 in
/-- C8 (as stated) fails: for a function whose name starts with the byte 1, the line that
`print` writes holds the escaped form of the name, and the name itself does not occur in
it. -/
theorem print_escapes_function_name :
    print ⟨0, [Examples.recEscaped], ""⟩ ""
        = "Function '\\001_stat': argument type mismatch. Argument #0 Expected 'i32' but argument is of type 'ptr'\n"
      ∧ ¬ (Examples.recEscaped.functionName.data
            <:+: (print ⟨0, [Examples.recEscaped], ""⟩ "").data) := by
  decide

/-- C8 (amended): `print` appends to the stream one line per accumulated record, in insertion
order, so that the output for `rs ++ ss` is the output for `rs` followed by the output for
`ss`; the line of a record is the function name in the escaped form of `write_escaped`, the
call-site line number when and only when the record has one, the argument index, the expected
type and the actual type, ended by a newline; the example record gives the line of the
specification. -/
theorem print_one_line_per_record (n : Nat) (d : String) (rs ss : List TypeMismatchRecord)
    (O : String) :
    print ⟨n, rs, d⟩ O = O ++ String.join (rs.map recordLine)
      ∧ print ⟨n, rs ++ ss, d⟩ O = print ⟨n, ss, d⟩ (print ⟨n, rs, d⟩ O)
      ∧ print ⟨n, rs ++ ss, d⟩ "" = print ⟨n, rs, d⟩ "" ++ print ⟨n, ss, d⟩ ""
      ∧ (∀ r : TypeMismatchRecord,
          recordLine r
            = "Function '" ++ write_escaped r.functionName ++ "'"
              ++ (if r.hasLine then " call on line '" ++ toString r.line ++ "'" else "")
              ++ ": argument type mismatch. " ++ "Argument #" ++ toString r.argNo ++ " "
              ++ "Expected '" ++ r.expectedType.display ++ "' "
              ++ "but argument is of type '" ++ r.actualType.display ++ "'\n")
      ∧ print ⟨n, [Examples.recF], d⟩ ""
          = "Function 'f' call on line '42': argument type mismatch. Argument #0 Expected 'int' but argument is of type 'long long'\n" := by
  refine ⟨printLoop_eq rs O, printLoop_append rs ss O, ?_, fun r => rfl, ?_⟩
  swap
  · show printLoop [Examples.recF] "" = _
    decide
  show printLoop (rs ++ ss) "" = printLoop rs "" ++ printLoop ss ""
  rw [printLoop_append, printLoop_eq ss (printLoop rs ""), printLoop_eq ss ""]
  simp

/-- C9 (as stated) fails: `int` and `long long` are both integer types and have the same type
ID, so for `f(int, long long)` called as `f(x)` and as `f(y, z)` a fresh pass records
nothing. -/
theorem int_and_long_long_give_no_record :
    Examples.i32.typeID = Examples.i64.typeID
      ∧ (runOnFunction false Examples.fIntLong
          [User.CallInst Examples.callX, User.CallInst Examples.callYZ] fresh).1.typeMismatches
        = [] := by
  decide

/-- C9 (amended): for a target `f` with formal types `(T1, T2)` whose type IDs differ, called
once as `f(x)` with `x : T1` and once as `f(y, z)` with `y : T2` and `z : T1`, `runOnFunction`
on a fresh pass yields exactly two records, none of them from the first call: the records of
the second call at argument index 0 (expected `T1`, actual `T2`) and at argument index 1
(expected `T2`, actual `T1`). -/
theorem runOnFunction_two_calls (debug : Bool) (name : String) (T1 T2 : LLVMType)
    (a b x y z : Option String) (id1 id2 : Nat) (p1 p2 : String) (l1 l2 : Option Nat)
    (h : T1.typeID ≠ T2.typeID) :
    (runOnFunction debug ⟨name, [⟨a, T1⟩, ⟨b, T2⟩]⟩
        [User.CallInst ⟨id1, p1, l1, [⟨x, T1⟩]⟩,
         User.CallInst ⟨id2, p2, l2, [⟨y, T2⟩, ⟨z, T1⟩]⟩] fresh).1.typeMismatches
        = [⟨name, recordedLine debug ⟨id2, p2, l2, [⟨y, T2⟩, ⟨z, T1⟩]⟩,
              recordedHasLine debug ⟨id2, p2, l2, [⟨y, T2⟩, ⟨z, T1⟩]⟩, 0, T1, T2⟩,
           ⟨name, recordedLine debug ⟨id2, p2, l2, [⟨y, T2⟩, ⟨z, T1⟩]⟩,
              recordedHasLine debug ⟨id2, p2, l2, [⟨y, T2⟩, ⟨z, T1⟩]⟩, 1, T2, T1⟩]
      ∧ (analyzeFunctionUsages debug ⟨name, [⟨a, T1⟩, ⟨b, T2⟩]⟩
          ⟨id1, p1, l1, [⟨x, T1⟩]⟩ fresh).typeMismatches = [] := by
  have h2 : T2.typeID ≠ T1.typeID := fun e => h e.symm
  rw [runOnFunction_typeMismatches, analyzeFunctionUsages_typeMismatches]
  simp [fresh, useRecords, callRecords, recordAt, List.range_succ, h, h2]

/-- C9 (amended), at `f(int, double)` called as `f(x : int)` and as `f(y : double, z : int)`. -/
theorem runOnFunction_two_calls_witness :
    Examples.i32.typeID ≠ Examples.double.typeID
      ∧ (runOnFunction false ⟨"f", [⟨some "a", Examples.i32⟩, ⟨some "b", Examples.double⟩]⟩
          [User.CallInst ⟨1, "main", none, [⟨some "x", Examples.i32⟩]⟩,
           User.CallInst ⟨2, "main", none,
             [⟨some "y", Examples.double⟩, ⟨some "z", Examples.i32⟩]⟩] fresh).1.typeMismatches
        = [⟨"f", 0, false, 0, Examples.i32, Examples.double⟩,
           ⟨"f", 0, false, 1, Examples.double, Examples.i32⟩] := by
  refine ⟨by decide, ?_⟩
  rw [(runOnFunction_two_calls false "f" Examples.i32 Examples.double (some "a") (some "b")
    (some "x") (some "y") (some "z") 1 2 "main" "main" none none (by decide)).1]
  decide

/-! ## Input acquisition -/

/-- C10 (as stated) fails for the method lister: when the front-end cannot read or parse the
named file, its `main` writes nothing to standard error and returns 0. -/
theorem method_lister_returns_zero_on_failure :
    clang_list_methods.main 100 (fun _ => none) "missing.cc" = some ⟨"", "", 0⟩ := by
  decide

open llvm_bb_counter in
/-- C10 (amended): for the bitcode basic-block counter, whenever the named file cannot be
read or cannot be parsed, `main` writes the message to standard error, prints no
per-function output and returns the non-zero value -1; it returns 0 exactly when the file
was read and parsed. -/
theorem bb_counter_main_failure_exit (getFile : String → Except String MemoryBuffer)
    (parseBitcodeFile : MemoryBuffer → Except String Module) (FileName : String) :
    (∀ msg : String, getFile FileName = Except.error msg →
        main getFile parseBitcodeFile FileName = ⟨"", msg, -1⟩)
      ∧ (∀ (mb : MemoryBuffer) (msg : String), getFile FileName = Except.ok mb →
          parseBitcodeFile mb = Except.error msg →
          main getFile parseBitcodeFile FileName
            = ⟨"", "Error reading bitcode: " ++ msg ++ "\n", -1⟩)
      ∧ ((main getFile parseBitcodeFile FileName).exitCode = 0
          ↔ ∃ (mb : MemoryBuffer) (m : Module),
              getFile FileName = Except.ok mb ∧ parseBitcodeFile mb = Except.ok m)
      ∧ ((main getFile parseBitcodeFile FileName).exitCode ≠ 0
          → (main getFile parseBitcodeFile FileName).exitCode = -1
            ∧ (main getFile parseBitcodeFile FileName).stdout = "") := by
  cases hg : getFile FileName with
  | error e =>
    have hmain : main getFile parseBitcodeFile FileName = ⟨"", e, -1⟩ := by
      simp [main, hg]
    rw [hmain]
    refine ⟨?_, ?_, ?_, ?_⟩
    · intro msg h
      cases h
      rfl
    · intro mb msg h
      cases h
    · constructor
      · intro h
        exact absurd h (show ((-1 : Int) = 0) → False by decide)
      · rintro ⟨mb, m, h, _⟩
        cases h
    · intro _
      exact ⟨rfl, rfl⟩
  | ok mb =>
    cases hp : parseBitcodeFile mb with
    | error e =>
      have hmain : main getFile parseBitcodeFile FileName
          = ⟨"", "Error reading bitcode: " ++ e ++ "\n", -1⟩ := by
        simp [main, hg, hp]
      rw [hmain]
      refine ⟨?_, ?_, ?_, ?_⟩
      · intro msg h
        cases h
      · intro mb1 msg h1 h2
        cases h1
        rw [hp] at h2
        cases h2
        rfl
      · constructor
        · intro h
          exact absurd h (show ((-1 : Int) = 0) → False by decide)
        · rintro ⟨mb1, m, h1, h2⟩
          cases h1
          rw [hp] at h2
          cases h2
      · intro _
        exact ⟨rfl, rfl⟩
    | ok m =>
      have hmain : main getFile parseBitcodeFile FileName
          = ⟨printFunctions m "", "", 0⟩ := by
        simp [main, hg, hp]
      rw [hmain]
      refine ⟨?_, ?_, ?_, ?_⟩
      · intro msg h
        cases h
      · intro mb1 msg h1 h2
        cases h1
        rw [hp] at h2
        cases h2
      · exact ⟨fun _ => ⟨mb, m, rfl, hp⟩, fun _ => rfl⟩
      · intro h
        exact absurd rfl h

open llvm_bb_counter in
/-- C10 (amended), at a file that cannot be read. -/
theorem bb_counter_main_failure_exit_witness :
    Examples.getFileFails "missing.bc" = Except.error "No such file or directory"
      ∧ main Examples.getFileFails Examples.parseEmpty "missing.bc"
        = ⟨"", "No such file or directory", -1⟩ :=
  ⟨rfl,
    (bb_counter_main_failure_exit Examples.getFileFails Examples.parseEmpty "missing.bc").1
      "No such file or directory" rfl⟩
